import Mathlib

/-!
Verification of the genetic-algorithm activity scheduler.

The definitions below are a shallow embedding of the Python sources under
`gen/` (constants.py, models.py, fitness_evaluator.py, genetic_operators.py,
selection_methods.py, population_manager.py, algorithm_engine.py).

Embedding conventions:
* Python `float` arithmetic is modelled by `ℚ` (all scoring constants and
  comparisons in the source are exact small decimals, far from any binary
  rounding boundary).
* Python `Optional[str]` fields are `Option String`; a Python truthiness test
  `if not s` on such a field is `none` or the empty string.
* Python dicts that accumulate counts are modelled by association lists built
  with `bumpKey` (insertion order preserved, exactly like a Python dict).
* A `Schedule`'s assignment dict is an association list `Sched` in insertion
  order; `lookup_assignment` models `schedule.assignments[name]`, totalised
  with an all-`none` assignment (the source only performs these accesses on
  complete schedules, which the relevant theorems assume).
* Randomness (`random.random`, `random.randint`, `random.choice`,
  `random.choices`) is abstracted by explicit oracle parameters, so theorems
  quantify over every possible draw.
-/

namespace GenSched

/-- constants.py: ALL_FACILITATORS. -/
def ALL_FACILITATORS : List String :=
  ["Lock", "Glen", "Banks", "Richards", "Shaw",
   "Singer", "Uther", "Tyler", "Numen", "Zeldin"]

/-- constants.py: ALL_TIME_SLOTS (ordering matters: hour distance uses indices). -/
def ALL_TIME_SLOTS : List String :=
  ["10 AM", "11 AM", "12 PM", "1 PM", "2 PM", "3 PM"]

/-- constants.py: ROOMS_WITH_CAPACITIES. -/
def ROOMS_WITH_CAPACITIES : List (String × Nat) :=
  [("Beach 201", 18), ("Beach 301", 25), ("Frank 119", 95), ("Loft 206", 55),
   ("Loft 310", 48), ("James 325", 110), ("Roman 201", 40), ("Roman 216", 80),
   ("Slater 003", 32)]

/-- One entry of constants.py: ACTIVITY_DEFINITIONS. -/
structure ActivityDef where
  expected_enrollment : Nat
  preferred_facilitators : List String
  acceptable_facilitators : List String
deriving DecidableEq, Repr

/-- constants.py: ACTIVITY_DEFINITIONS (insertion order preserved). -/
def ACTIVITY_DEFINITIONS : List (String × ActivityDef) :=
  [("SLA101A", ⟨40, ["Glen", "Lock", "Banks"], ["Numen", "Richards", "Shaw", "Singer"]⟩),
   ("SLA101B", ⟨35, ["Glen", "Lock", "Banks"], ["Numen", "Richards", "Shaw", "Singer"]⟩),
   ("SLA191A", ⟨45, ["Glen", "Lock", "Banks"], ["Numen", "Richards", "Shaw", "Singer"]⟩),
   ("SLA191B", ⟨40, ["Glen", "Lock", "Banks"], ["Numen", "Richards", "Shaw", "Singer"]⟩),
   ("SLA201", ⟨60, ["Glen", "Banks", "Zeldin", "Lock", "Singer"], ["Richards", "Uther", "Shaw"]⟩),
   ("SLA291", ⟨50, ["Glen", "Banks", "Zeldin", "Lock", "Singer"], ["Richards", "Uther", "Shaw"]⟩),
   ("SLA303", ⟨25, ["Glen", "Zeldin"], ["Banks"]⟩),
   ("SLA304", ⟨20, ["Singer", "Uther"], ["Richards"]⟩),
   ("SLA394", ⟨15, ["Tyler", "Singer"], ["Richards", "Zeldin"]⟩),
   ("SLA449", ⟨30, ["Tyler", "Zeldin", "Uther"], ["Zeldin", "Shaw"]⟩),
   ("SLA451", ⟨90, ["Lock", "Banks", "Zeldin"], ["Tyler", "Singer", "Shaw", "Glen"]⟩)]

/-- constants.py: ALL_ACTIVITIES = list(ACTIVITY_DEFINITIONS.keys()). -/
def ALL_ACTIVITIES : List String := ACTIVITY_DEFINITIONS.map Prod.fst

/-- constants.py: SLA101_SECTIONS. -/
def SLA101_SECTIONS : String × String := ("SLA101A", "SLA101B")

/-- constants.py: SLA191_SECTIONS. -/
def SLA191_SECTIONS : String × String := ("SLA191A", "SLA191B")

/-- constants.py: CROSS_SECTION_PAIRS. -/
def CROSS_SECTION_PAIRS : List (String × String) :=
  [("SLA101A", "SLA191A"), ("SLA101A", "SLA191B"),
   ("SLA101B", "SLA191A"), ("SLA101B", "SLA191B")]

/-- models.py: ActivityAssignment (room/time/facilitator default to None). -/
structure Assignment where
  room : Option String
  time : Option String
  facilitator : Option String
deriving DecidableEq, Repr

/-- models.py: ActivityAssignment.copy — a fresh object with the same fields. -/
def Assignment.copy (a : Assignment) : Assignment := ⟨a.room, a.time, a.facilitator⟩

/-- The assignment dict of a Schedule: `{activity_name: ActivityAssignment}`
in insertion order. -/
abbrev Sched := List (String × Assignment)

/-- Python truthiness of an optional string field (`if not s`). -/
def truthy : Option String → Bool
  | none => false
  | some s => !(s == "")

/-- Models `schedule.assignments[name]` (dict access; only performed on
complete schedules in the source, so the all-`none` default never fires under
the completeness hypotheses used below). -/
def lookup_assignment (s : Sched) (name : String) : Assignment :=
  match s with
  | [] => ⟨none, none, none⟩
  | (n, a) :: rest => if n = name then a else lookup_assignment rest name

/-- fitness_evaluator.py: the `_time_slot_indices` dict lookup (`dict.get`). -/
def time_slot_index (t : String) : Option Nat := ALL_TIME_SLOTS.indexOf? t

/-- fitness_evaluator.py: FitnessCalculator._calculate_hour_difference. -/
def calculate_hour_difference (t1 t2 : String) : Nat :=
  match time_slot_index t1, time_slot_index t2 with
  | some i, some j => ((i : Int) - (j : Int)).natAbs
  | _, _ => 0

/-- fitness_evaluator.py: FitnessCalculator._is_room_in_beach_or_roman. -/
def is_room_in_beach_or_roman (room : Option String) : Bool :=
  match room with
  | none => false
  | some r =>
    if r == "" then false
    else r.startsWith "Beach" || r.startsWith "Roman"

/-- fitness_evaluator.py: FitnessCalculator._evaluate_room_size. -/
def evaluate_room_size (activity_name : String) (room : Option String) : ℚ :=
  match room, ACTIVITY_DEFINITIONS.lookup activity_name with
  | some r, some info =>
    if r == "" then 0
    else
      let expected := info.expected_enrollment
      let capacity := (ROOMS_WITH_CAPACITIES.lookup r).getD 0
      if capacity < expected then -(1/2)
      else
        let utilization : ℚ := (capacity : ℚ) / (expected : ℚ)
        if utilization > 3 then -(2/5)
        else if utilization > 3/2 then -(1/5)
        else 3/10
  | _, _ => 0

/-- fitness_evaluator.py: FitnessCalculator._evaluate_facilitator_preference. -/
def evaluate_facilitator_pref (activity_name : String) (fac : Option String) : ℚ :=
  match fac, ACTIVITY_DEFINITIONS.lookup activity_name with
  | some f, some info =>
    if f == "" then 0
    else if info.preferred_facilitators.contains f then 1/2
    else if info.acceptable_facilitators.contains f then 1/5
    else -(1/10)
  | _, _ => 0

/-- One step of Python dict count accumulation
`d[key] = d.get(key, 0) + 1` on an insertion-ordered association list. -/
def bumpKey {α : Type} [DecidableEq α] (m : List (α × Nat)) (k : α) : List (α × Nat) :=
  match m with
  | [] => [(k, 1)]
  | (k2, c) :: rest => if k2 = k then (k2, c + 1) :: rest else (k2, c) :: bumpKey rest k

/-- `dict.get(key, 0)` on a count dict. -/
def lookupD {α : Type} [DecidableEq α] (m : List (α × Nat)) (k : α) : Nat :=
  match m with
  | [] => 0
  | (k2, c) :: rest => if k2 = k then c else lookupD rest k

/-- Build a count dict from a key list (the first-pass accumulation loops). -/
def buildCounts {α : Type} [DecidableEq α] (keys : List α) : List (α × Nat) :=
  keys.foldl bumpKey []

/-- The (room, time) keys contributed to `room_time_usage` /
`room_time_counts`, in schedule order (only truthy room and time). -/
def room_time_keys (s : Sched) : List (String × String) :=
  s.filterMap (fun e =>
    match e.2.room, e.2.time with
    | some r, some t => if r == "" || t == "" then none else some (r, t)
    | _, _ => none)

/-- The (facilitator, time) keys contributed to `facilitator_time_usage`. -/
def facilitator_time_keys (s : Sched) : List (String × String) :=
  s.filterMap (fun e =>
    match e.2.facilitator, e.2.time with
    | some f, some t => if f == "" || t == "" then none else some (f, t)
    | _, _ => none)

/-- The facilitator keys contributed to `facilitator_total_load`. -/
def facilitator_keys (s : Sched) : List String :=
  s.filterMap (fun e =>
    match e.2.facilitator with
    | some f => if f == "" then none else some f
    | none => none)

/-- fitness_evaluator.py first pass: the `room_time_usage` dict. -/
def room_time_usage (s : Sched) : List ((String × String) × Nat) :=
  buildCounts (room_time_keys s)

/-- fitness_evaluator.py first pass: the `facilitator_time_usage` dict. -/
def facilitator_time_usage (s : Sched) : List ((String × String) × Nat) :=
  buildCounts (facilitator_time_keys s)

/-- fitness_evaluator.py first pass: the `facilitator_total_load` dict. -/
def facilitator_total_load (s : Sched) : List (String × Nat) :=
  buildCounts (facilitator_keys s)

/-- fitness_evaluator.py, calculate_schedule_fitness step 5: the facilitator
total-load contribution to one activity's score (overload and Tyler-special
underload branches, verbatim). -/
def facLoadScore (facilitator : String) (total_load : Nat) : ℚ :=
  if total_load > 4 then -(1/2)
  else if total_load < 3 then
    if facilitator = "Tyler" then
      (if 2 ≤ total_load then -(2/5) else 0)
    else -(2/5)
  else 0

/-- fitness_evaluator.py, calculate_schedule_fitness second pass: the score of
one activity (steps 1–5). -/
def activity_score (s : Sched) (name : String) (a : Assignment) : ℚ :=
  evaluate_room_size name a.room
  + evaluate_facilitator_pref name a.facilitator
  + (match a.room, a.time with
     | some r, some t =>
       if r == "" || t == "" then 0
       else if lookupD (room_time_usage s) (r, t) > 1 then -(1/2) else 0
     | _, _ => 0)
  + (match a.facilitator, a.time with
     | some f, some t =>
       if f == "" || t == "" then 0
       else
         let concurrent := lookupD (facilitator_time_usage s) (f, t)
         if concurrent = 1 then 1/5
         else if concurrent > 1 then -(1/5)
         else 0
     | _, _ => 0)
  + (match a.facilitator with
     | some f =>
       if f == "" then 0
       else facLoadScore f (lookupD (facilitator_total_load s) f)
     | none => 0)

/-- fitness_evaluator.py: FitnessCalculator._evaluate_section_spacing. -/
def evaluate_section_spacing (sec1 sec2 : String) (s : Sched) : ℚ :=
  let a1 := lookup_assignment s sec1
  let a2 := lookup_assignment s sec2
  match a1.time, a2.time with
  | some t1, some t2 =>
    if t1 == "" || t2 == "" then 0
    else if t1 == t2 then -(1/2)
    else if calculate_hour_difference t1 t2 > 4 then 1/2
    else 0
  | _, _ => 0

/-- fitness_evaluator.py: FitnessCalculator._evaluate_cross_section_interaction. -/
def evaluate_cross_section (sec101 sec191 : String) (s : Sched) : ℚ :=
  let a1 := lookup_assignment s sec101
  let a2 := lookup_assignment s sec191
  match a1.time, a2.time with
  | some t1, some t2 =>
    if t1 == "" || t2 == "" then 0
    else if t1 == t2 then -(1/4)
    else
      let hour_diff := calculate_hour_difference t1 t2
      if hour_diff = 1 then
        if is_room_in_beach_or_roman a1.room != is_room_in_beach_or_roman a2.room
        then 1/2 - 2/5
        else 1/2
      else if hour_diff = 2 then 1/4
      else 0
  | _, _ => 0

/-- fitness_evaluator.py: FitnessCalculator.calculate_schedule_fitness, without
the memoization wrapper (the pure score over the current assignments). -/
def calculate_schedule_fitness (s : Sched) : ℚ :=
  (s.map (fun e => activity_score s e.1 e.2)).sum
  + evaluate_section_spacing SLA101_SECTIONS.1 SLA101_SECTIONS.2 s
  + evaluate_section_spacing SLA191_SECTIONS.1 SLA191_SECTIONS.2 s
  + (CROSS_SECTION_PAIRS.map (fun p => evaluate_cross_section p.1 p.2 s)).sum

/-- fitness_evaluator.py: the `violation_counts` dict of
calculate_constraint_violations. -/
structure ViolationCounts where
  room_conflicts : Nat
  room_too_small : Nat
  room_too_big_15 : Nat
  room_too_big_30 : Nat
  facilitator_overload : Nat
  facilitator_underload : Nat
  facilitator_same_time_conflict : Nat
  sla101_same_time : Nat
  sla191_same_time : Nat
  sla101_191_same_time : Nat
  sla101_191_building_mismatch : Nat
  sla101_191_one_hour_gap : Nat
  sla101_191_consecutive_pair : Nat
deriving DecidableEq, Repr

/-- calculate_constraint_violations, first pass: room-size violations of one
activity, returned as (too_small, too_big_15, too_big_30) increments. -/
def room_size_violation (name : String) (room : Option String) : Nat × Nat × Nat :=
  match room, ACTIVITY_DEFINITIONS.lookup name with
  | some r, some info =>
    if r == "" then (0, 0, 0)
    else
      let expected := info.expected_enrollment
      let capacity := (ROOMS_WITH_CAPACITIES.lookup r).getD 0
      if capacity < expected then (1, 0, 0)
      else if 0 < capacity ∧ 0 < expected then
        let utilization : ℚ := (capacity : ℚ) / (expected : ℚ)
        if utilization > 3 then (0, 0, 1)
        else if utilization > 3/2 then (0, 1, 0)
        else (0, 0, 0)
      else (0, 0, 0)
  | _, _ => (0, 0, 0)

/-- calculate_constraint_violations, second pass: the
`if count > 1: total += count - 1` accumulation over a count dict's values. -/
def conflictExcess {α : Type} (m : List (α × Nat)) : Nat :=
  m.foldl (fun acc e => if e.2 > 1 then acc + (e.2 - 1) else acc) 0

/-- calculate_constraint_violations, second pass: the per-facilitator
overload/underload increments for one dict entry (facilitator, total). -/
def facLoadViolationStep (facilitator : String) (total : Nat) : Nat × Nat :=
  if total > 4 then (1, 0)
  else if total < 3 then
    if facilitator = "Tyler" then
      (if 2 ≤ total then (0, 1) else (0, 0))
    else (0, 1)
  else (0, 0)

/-- calculate_constraint_violations, second pass: the accumulation of
overload/underload counts over the `facilitator_total_counts` dict. -/
def facLoadViolationCounts (m : List (String × Nat)) : Nat × Nat :=
  m.foldl
    (fun acc e =>
      ((facLoadViolationStep e.1 e.2).1 + acc.1, (facLoadViolationStep e.1 e.2).2 + acc.2))
    (0, 0)

/-- calculate_constraint_violations, third pass: the same-time check for one
same-course section pair. -/
def section_same_time (s : Sched) (sec1 sec2 : String) : Nat :=
  let a1 := lookup_assignment s sec1
  let a2 := lookup_assignment s sec2
  match a1.time, a2.time with
  | some t1, some t2 =>
    if t1 == "" || t2 == "" then 0
    else if t1 == t2 then 1
    else 0
  | _, _ => 0

/-- calculate_constraint_violations, third pass: the counts contributed by one
cross-section pair, as (same_time, building_mismatch, one_hour_gap,
consecutive_pair) increments. -/
def cross_section_violation (s : Sched) (p : String × String) : Nat × Nat × Nat × Nat :=
  let a1 := lookup_assignment s p.1
  let a2 := lookup_assignment s p.2
  match a1.time, a2.time with
  | some t1, some t2 =>
    if t1 == "" || t2 == "" then (0, 0, 0, 0)
    else if t1 == t2 then (1, 0, 0, 0)
    else
      let hour_diff := calculate_hour_difference t1 t2
      if hour_diff = 1 then
        (0,
         (match a1.room, a2.room with
          | some r1, some r2 =>
            if r1 == "" || r2 == "" then 0
            else if is_room_in_beach_or_roman a1.room != is_room_in_beach_or_roman a2.room
            then 1 else 0
          | _, _ => 0),
         0, 1)
      else if hour_diff = 2 then (0, 0, 1, 0)
      else (0, 0, 0, 0)
  | _, _ => (0, 0, 0, 0)

/-- fitness_evaluator.py: FitnessCalculator.calculate_constraint_violations
(the returned dict; the side effect `schedule.violations = counts` is modelled
at the `PySchedule` level). -/
def calculate_constraint_violations (s : Sched) : ViolationCounts :=
  let room_sizes := s.map (fun e => room_size_violation e.1 e.2.room)
  let fac_loads := facLoadViolationCounts (facilitator_total_load s)
  let crosses := CROSS_SECTION_PAIRS.map (cross_section_violation s)
  { room_conflicts := conflictExcess (room_time_usage s)
    room_too_small := (room_sizes.map (fun x => x.1)).sum
    room_too_big_15 := (room_sizes.map (fun x => x.2.1)).sum
    room_too_big_30 := (room_sizes.map (fun x => x.2.2)).sum
    facilitator_overload := fac_loads.1
    facilitator_underload := fac_loads.2
    facilitator_same_time_conflict := conflictExcess (facilitator_time_usage s)
    sla101_same_time := section_same_time s SLA101_SECTIONS.1 SLA101_SECTIONS.2
    sla191_same_time := section_same_time s SLA191_SECTIONS.1 SLA191_SECTIONS.2
    sla101_191_same_time := (crosses.map (fun x => x.1)).sum
    sla101_191_building_mismatch := (crosses.map (fun x => x.2.1)).sum
    sla101_191_one_hour_gap := (crosses.map (fun x => x.2.2.1)).sum
    sla101_191_consecutive_pair := (crosses.map (fun x => x.2.2.2)).sum }

/-- models.py: a Schedule object with its two cached fields
(`_fitness_score`, `_violation_summary`). -/
structure PySchedule where
  assignments : Sched
  fitnessCache : Option ℚ
  violationsCache : Option ViolationCounts
deriving DecidableEq, Repr

/-- genetic_operators.py, apply_mutation loop body for one activity: the three
independent per-field coin flips and replacement draws.  `shouldMutate i k`
abstracts the k-th `random.random() < mutation_probability` draw for activity
index `i`; `pickRoom/pickTime/pickFacilitator` abstract the `random.choice`
draws from the corresponding catalog. -/
def mutate_assignment (shouldMutate : Nat → Fin 3 → Bool)
    (pickRoom pickTime pickFacilitator : Nat → String) (i : Nat) (a : Assignment) :
    Assignment :=
  let a1 := if shouldMutate i 0 then { a with room := some (pickRoom i) } else a
  let a2 := if shouldMutate i 1 then { a1 with time := some (pickTime i) } else a1
  if shouldMutate i 2 then { a2 with facilitator := some (pickFacilitator i) } else a2

/-- genetic_operators.py: apply_mutation.  Mutates every assignment's fields
per the random draws, then executes `schedule.fitness = None` — and nothing
else — on the caches, returning the same schedule. -/
def apply_mutation (shouldMutate : Nat → Fin 3 → Bool)
    (pickRoom pickTime pickFacilitator : Nat → String) (s : PySchedule) : PySchedule :=
  { assignments :=
      s.assignments.enum.map
        (fun e => (e.2.1, mutate_assignment shouldMutate pickRoom pickTime pickFacilitator e.1 e.2.2)),
    fitnessCache := none,
    violationsCache := s.violationsCache }

/-- genetic_operators.py: perform_single_point_crossover, with the
`random.randint(0, len(ALL_ACTIVITIES) - 1)` draw abstracted as
`crossover_point`. -/
def perform_single_point_crossover (crossover_point : Nat) (parent_1 parent_2 : Sched) :
    Sched :=
  ALL_ACTIVITIES.enum.map (fun e =>
    if e.1 ≤ crossover_point then (e.2, (lookup_assignment parent_1 e.2).copy)
    else (e.2, (lookup_assignment parent_2 e.2).copy))

/-- models.py: Schedule.create_copy restricted to the assignment dict
(each assignment deep-copied). -/
def copySched (s : Sched) : Sched := s.map (fun e => (e.1, e.2.copy))

/-- The serialized assignment tuple of fitness_evaluator.py line 183:
`[(a.room, a.time, a.facilitator) for a in schedule.assignments.values()]`.
The source then applies `hash(str(...))` to this list; `str` is injective on
these values, so the serialization is modelled by the triple list itself and
the lossy `hash` step separately (see `calculate_schedule_fitness_memo`). -/
def encodeKey (s : Sched) : List (Option String × Option String × Option String) :=
  s.map (fun e => (e.2.room, e.2.time, e.2.facilitator))

/-- The `_fitness_cache` dict of FitnessCalculator: values indexed by the
integer produced by `hash(str(...))`. -/
abbrev HashCache := List (Int × ℚ)

/-- `cache_key in self._fitness_cache` / `self._fitness_cache[cache_key]`. -/
def lookupHash (c : HashCache) (k : Int) : Option ℚ :=
  match c with
  | [] => none
  | (k2, v) :: rest => if k2 = k then some v else lookupHash rest k

/-- fitness_evaluator.py: FitnessCalculator.calculate_schedule_fitness with its
memoization: hash the serialized current assignments, look the hash up in the
cache, otherwise compute and store.  `hashFn` models Python's `hash ∘ str` —
a per-process seeded function into the bounded 64-bit integer range, passed
as a parameter because the seed is unknown; theorems quantify over it or
instantiate it.  Returns (returned score, cache after the call). -/
def calculate_schedule_fitness_memo
    (hashFn : List (Option String × Option String × Option String) → Int)
    (cache : HashCache) (s : Sched) : ℚ × HashCache :=
  let k := hashFn (encodeKey s)
  match lookupHash cache k with
  | some v => (v, cache)
  | none =>
    let v := calculate_schedule_fitness s
    (v, (k, v) :: cache)

/-- No entry of the cache collides harmfully with the query schedule `s`:
every stored entry whose hash equals the hash of `s`'s serialized assignments
holds exactly the fresh fitness of `s`.  This holds vacuously for the empty
cache and whenever no stored key's hash collides with `s`'s. -/
def CacheAccurate (hashFn : List (Option String × Option String × Option String) → Int)
    (cache : HashCache) (s : Sched) : Prop :=
  ∀ e ∈ cache, e.1 = hashFn (encodeKey s) → e.2 = calculate_schedule_fitness s

/-- In-place mutation of one assignment field
(`schedule.assignments[name].room = r`). -/
def setRoom (s : Sched) (name : String) (r : Option String) : Sched :=
  s.map (fun e => if e.1 = name then (e.1, { e.2 with room := r }) else e)

/-- selection_methods.py: calculate_softmax_probabilities, with `math.exp`
abstracted as `expFn` (the source's only reliance on exp is that it is a
real function; positivity is an explicit hypothesis where needed). -/
def calculate_softmax_probabilities (expFn : ℚ → ℚ) (fitness_scores : List ℚ) : List ℚ :=
  match fitness_scores with
  | [] => []
  | s :: rest =>
    let max_score := rest.foldl max s
    let exponentiated := (s :: rest).map (fun x => expFn (x - max_score))
    let total := exponentiated.sum
    if total = 0 then
      List.replicate (s :: rest).length ((1 : ℚ) / ((s :: rest).length : ℚ))
    else exponentiated.map (fun x => x / total)

/-- `max(fitness_scores)` on a nonempty list (0 on the empty list, which the
source never reaches). -/
def maxScore (l : List ℚ) : ℚ :=
  match l with
  | [] => 0
  | s :: rest => rest.foldl max s

/-- The sum of the max-shifted exponentials of calculate_softmax_probabilities. -/
def shiftedTotal (expFn : ℚ → ℚ) (l : List ℚ) : ℚ :=
  (l.map (fun x => expFn (x - maxScore l))).sum

/-- selection_methods.py: select_parent_pairs, with the two weighted
`random.choices` draws of iteration `i` abstracted as `pickA i` / `pickB i`. -/
def select_parent_pairs (pickA pickB : Nat → Sched) (number_of_pairs : Nat) :
    List (Sched × Sched) :=
  (List.range number_of_pairs).map (fun i => (pickA i, pickB i))

/-- selection_methods.py: select_best_schedules — zip population with scores,
stable-sort by fitness descending, take the top k, return deep copies. -/
def select_best_schedules (population : List Sched) (fitness_scores : List ℚ)
    (number_to_select : Nat) : List Sched :=
  let pairs := population.zip fitness_scores
  let sorted := pairs.mergeSort (fun a b => decide (b.2 ≤ a.2))
  (sorted.take number_to_select).map (fun p => copySched p.1)

/-- algorithm_engine.py, next-generation assembly: elites first, then
offspring; truncate from the end if over the target, otherwise pad with
offspring from the start if short. -/
def assemble_next_generation (elite offspring : List Sched) (population_size : Nat) :
    List Sched :=
  let next_generation := elite ++ offspring
  if next_generation.length > population_size then next_generation.take population_size
  else if next_generation.length < population_size then
    next_generation ++ offspring.take (population_size - next_generation.length)
  else next_generation

/-- algorithm_engine.py: the improvement-percentage computation of the
evaluation phase (`None` on the very first generation). -/
def calcImprovement (previous_average : Option ℚ) (current_average : ℚ) : Option ℚ :=
  match previous_average with
  | none => none
  | some p =>
    let denominator := if |p| > 1/1000000000 then |p| else 1/1000000000
    some ((current_average - p) / denominator * 100)

/-- algorithm_engine.py: the `should_terminate` condition. -/
def shouldTerminate (minimum_generations g : Nat) (improvement : Option ℚ) : Bool :=
  decide (minimum_generations ≤ g + 1) &&
    (match improvement with
     | some i => decide (i < 1)
     | none => false)

/-- algorithm_engine.py: the adaptive-mutation adjustment applied after the
termination check of generation `g`. -/
def adaptRate (use_adaptive_mutation : Bool) (g : Nat) (improvement : Option ℚ)
    (rate : ℚ) : ℚ :=
  if use_adaptive_mutation && decide (0 < g) && decide (g % 20 = 0) then
    match improvement with
    | some i => if 1/10 < i then rate / 2 else rate
    | none => rate
  else rate

/-- One generation's history record (generation index, improvement, mutation
rate in effect), as appended by the evaluation phase. -/
structure GenRecord where
  gen : Nat
  improvement : Option ℚ
  rate : ℚ
deriving DecidableEq, Repr

/-- What run_optimization returns of the control flow: the generation history,
`total_generations_run`, the final mutation rate, and whether the loop exited
through the plateau `break` (rather than the `maximum_generations` ceiling). -/
structure RunResult where
  history : List GenRecord
  totalGenerations : Nat
  finalRate : ℚ
  terminatedEarly : Bool
deriving Repr

/-- algorithm_engine.py: the main evolution loop of run_optimization, with the
stochastic population evaluation abstracted by `avg : Nat → ℚ` (the average
fitness the evaluation phase computes at each generation index).  `fuel` is
the number of loop iterations remaining (initially `maximum_generations`). -/
def runLoop (avg : Nat → ℚ) (minimum_generations : Nat) (use_adaptive_mutation : Bool) :
    Nat → Option ℚ → ℚ → Nat → RunResult
  | g, _, rate, 0 => ⟨[], g, rate, false⟩
  | g, previous_average, rate, fuel + 1 =>
    let current_average := avg g
    let improvement := calcImprovement previous_average current_average
    let record : GenRecord := ⟨g, improvement, rate⟩
    if shouldTerminate minimum_generations g improvement then
      ⟨[record], g + 1, rate, true⟩
    else
      let rest := runLoop avg minimum_generations use_adaptive_mutation
        (g + 1) (some current_average)
        (adaptRate use_adaptive_mutation g improvement rate) fuel
      ⟨record :: rest.history, rest.totalGenerations, rest.finalRate, rest.terminatedEarly⟩

/-- algorithm_engine.py: run_optimization's control loop from generation 0. -/
def engineRun (avg : Nat → ℚ) (minimum_generations maximum_generations : Nat)
    (use_adaptive_mutation : Bool) (initial_mutation_probability : ℚ) : RunResult :=
  runLoop avg minimum_generations use_adaptive_mutation 0 none
    initial_mutation_probability maximum_generations

/-- The previous-average state the loop holds when it reaches generation `g`. -/
def prevAverageOf (avg : Nat → ℚ) : Nat → Option ℚ
  | 0 => none
  | g + 1 => some (avg g)

/-- The improvement percentage computed at generation `g`. -/
def improvementAt (avg : Nat → ℚ) (g : Nat) : Option ℚ :=
  calcImprovement (prevAverageOf avg g) (avg g)

/-- The plateau-termination condition at generation `g`. -/
def plateauAt (avg : Nat → ℚ) (minimum_generations g : Nat) : Bool :=
  shouldTerminate minimum_generations g (improvementAt avg g)

/-- algorithm_engine.py: the crossover-method dispatch of the reproduction
phase (`if crossover_method == "uniform": ... else: # Default to single-point`). -/
inductive CrossoverKind where
  | singlePoint
  | uniform
deriving DecidableEq, Repr

/-- The crossover method actually used for a configured `crossover_method`
string: anything other than "uniform" silently uses single-point. -/
def chooseCrossoverMethod (crossover_method : String) : CrossoverKind :=
  if crossover_method == "uniform" then .uniform else .singlePoint

/-- population_manager.py: the validation in create_initial_population
(`if population_size < 250: raise ValueError(...)`). -/
def create_initial_population_check (population_size : Nat) : Except String Unit :=
  if population_size < 250 then
    Except.error "Population size must be at least 250"
  else Except.ok ()

/-- algorithm_engine.py: everything run_optimization can raise before its main
loop starts.  The only pre-loop validation in the source is the population-size
check inside create_initial_population; `elitism_count` and `crossover_method`
are accepted without any check (an unrecognized crossover method silently
falls back to single-point in the reproduction phase, see
`chooseCrossoverMethod`). -/
def run_optimization_validation (population_size elitism_count : Nat)
    (crossover_method : String) : Except String Unit :=
  create_initial_population_check population_size

/-- A concrete complete schedule (one assignment per catalog activity, rooms
and times pairwise distinct pairs, all fields drawn from the catalogs). -/
def exampleSchedule : Sched :=
  [("SLA101A", ⟨some "Slater 003", some "10 AM", some "Glen"⟩),
   ("SLA101B", ⟨some "Roman 201", some "11 AM", some "Lock"⟩),
   ("SLA191A", ⟨some "Loft 310", some "12 PM", some "Banks"⟩),
   ("SLA191B", ⟨some "Loft 206", some "3 PM", some "Glen"⟩),
   ("SLA201", ⟨some "Roman 216", some "1 PM", some "Banks"⟩),
   ("SLA291", ⟨some "Frank 119", some "2 PM", some "Lock"⟩),
   ("SLA303", ⟨some "Beach 301", some "10 AM", some "Zeldin"⟩),
   ("SLA304", ⟨some "Beach 201", some "11 AM", some "Singer"⟩),
   ("SLA394", ⟨some "James 325", some "12 PM", some "Tyler"⟩),
   ("SLA449", ⟨some "James 325", some "1 PM", some "Uther"⟩),
   ("SLA451", ⟨some "James 325", some "2 PM", some "Zeldin"⟩)]

/-- A concrete complete schedule that places three activities (SLA101A,
SLA101B, SLA191A) in the same (room, time-slot) pair ("Beach 201", "10 AM"),
all other pairs distinct. -/
def conflictSchedule : Sched :=
  [("SLA101A", ⟨some "Beach 201", some "10 AM", some "Glen"⟩),
   ("SLA101B", ⟨some "Beach 201", some "10 AM", some "Lock"⟩),
   ("SLA191A", ⟨some "Beach 201", some "10 AM", some "Banks"⟩),
   ("SLA191B", ⟨some "Loft 206", some "3 PM", some "Glen"⟩),
   ("SLA201", ⟨some "Roman 216", some "1 PM", some "Banks"⟩),
   ("SLA291", ⟨some "Frank 119", some "2 PM", some "Lock"⟩),
   ("SLA303", ⟨some "Beach 301", some "11 AM", some "Zeldin"⟩),
   ("SLA304", ⟨some "Beach 201", some "11 AM", some "Singer"⟩),
   ("SLA394", ⟨some "James 325", some "12 PM", some "Tyler"⟩),
   ("SLA449", ⟨some "James 325", some "1 PM", some "Uther"⟩),
   ("SLA451", ⟨some "James 325", some "2 PM", some "Zeldin"⟩)]

/-- A schedule whose violations cache is populated (exactly the state the
evaluator's `calculate_constraint_violations` leaves behind) and whose
fitness cache is populated. -/
def c1Schedule : PySchedule :=
  { assignments := exampleSchedule,
    fitnessCache := some (calculate_schedule_fitness exampleSchedule),
    violationsCache := some (calculate_constraint_violations exampleSchedule) }

/-- C1 (counterexample): after apply_mutation — here with every per-field coin
landing on "mutate" — the violations cache of the schedule is NOT unset: the
source clears only `schedule.fitness`, never `schedule.violations`. -/
theorem c1_counterexample :
    ¬ ((apply_mutation (fun _ _ => true) (fun _ => "Beach 201") (fun _ => "11 AM")
        (fun _ => "Glen") c1Schedule).fitnessCache = none ∧
       (apply_mutation (fun _ _ => true) (fun _ => "Beach 201") (fun _ => "11 AM")
        (fun _ => "Glen") c1Schedule).violationsCache = none) := by
  intro h
  have hv := h.2
  simp [apply_mutation, c1Schedule] at hv

/-- C1 (amended): after any apply_mutation call — whatever the random draws
did, including a complete no-op pass — the schedule's fitness cache is unset,
and its violations cache is left exactly as it was (it is never invalidated
by mutation). -/
theorem c1_mutation_cache_effect (shouldMutate : Nat → Fin 3 → Bool)
    (pickRoom pickTime pickFacilitator : Nat → String) (s : PySchedule) :
    (apply_mutation shouldMutate pickRoom pickTime pickFacilitator s).fitnessCache = none
    ∧ (apply_mutation shouldMutate pickRoom pickTime pickFacilitator s).violationsCache
        = s.violationsCache :=
  ⟨rfl, rfl⟩

/-- C2 (counterexample): with population_size = 250 and elitism_count = 250
(so elitism_count ≥ population_size) run_optimization raises nothing before
the loop, and likewise an unrecognized crossover method "not_a_method" raises
nothing — contradicting the claim that both are configuration errors. -/
theorem c2_counterexample :
    run_optimization_validation 250 250 "single_point" = Except.ok ()
    ∧ (250 : Nat) ≤ 250
    ∧ run_optimization_validation 250 1 "not_a_method" = Except.ok () :=
  ⟨rfl, le_refl _, rfl⟩

/-- C2 (amended): run_optimization raises a configuration error before any
generation executes exactly when population_size is below the configured
minimum of 250 (raised by create_initial_population and surfaced unhandled to
the caller); elitism_count ≥ population_size is never checked, and an
unrecognized crossover_method is not rejected — the reproduction phase
silently treats it as single_point. -/
theorem c2_validation_behavior (population_size elitism_count : Nat)
    (crossover_method : String) :
    ((∃ msg, run_optimization_validation population_size elitism_count crossover_method
        = Except.error msg) ↔ population_size < 250)
    ∧ (crossover_method ≠ "uniform" →
        chooseCrossoverMethod crossover_method = CrossoverKind.singlePoint)
    ∧ chooseCrossoverMethod "uniform" = CrossoverKind.uniform := by
  refine ⟨?_, ?_, rfl⟩
  · unfold run_optimization_validation create_initial_population_check
    by_cases h : population_size < 250
    · simp [h]
    · simp [h]
  · intro h
    simp [chooseCrossoverMethod, h]

/-- C2 (witness for the amended theorem): concrete instances — population size
100 is rejected, and the unrecognized method "weird" dispatches to
single-point. -/
theorem c2_validation_witness :
    (∃ msg, run_optimization_validation 100 0 "weird" = Except.error msg)
    ∧ chooseCrossoverMethod "weird" = CrossoverKind.singlePoint :=
  ⟨(c2_validation_behavior 100 0 "weird").1.mpr (by norm_num),
   (c2_validation_behavior 100 0 "weird").2.1 (by decide)⟩

/-- C3: the facilitator total-load rule.  For an activity whose facilitator
`f` has total load `L` over the whole schedule: load above 4 scores −0.5;
load below 3 scores −0.4 except that "Tyler" below 2 is exempt, while "Tyler"
at exactly 2 does incur −0.4; and the violation counter counts an underload
for total < 3 with the Tyler exemption applying only below 2. -/
theorem c3_facilitator_load_rule (f : String) (L : Nat) :
    (4 < L → facLoadScore f L = -(1/2))
    ∧ (f = "Tyler" → L < 2 → facLoadScore f L = 0)
    ∧ facLoadScore "Tyler" 2 = -(2/5)
    ∧ (L < 3 → ¬(f = "Tyler" ∧ L < 2) → facLoadScore f L = -(2/5))
    ∧ (facLoadViolationStep f L).2 = (if L < 3 ∧ ¬(f = "Tyler" ∧ L < 2) then 1 else 0) := by
  refine ⟨?_, ?_, by norm_num [facLoadScore], ?_, ?_⟩
  · intro h
    simp [facLoadScore, h]
  · intro hf hL
    subst hf
    have h1 : ¬ (L > 4) := by omega
    have h2 : L < 3 := by omega
    have h3 : ¬ (2 ≤ L) := by omega
    simp [facLoadScore, h1, h2, h3]
  · intro hL hne
    simp only [facLoadScore]
    rw [if_neg (by omega), if_pos hL]
    by_cases hf : f = "Tyler"
    · have h2 : 2 ≤ L := by
        by_contra hc
        exact hne ⟨hf, by omega⟩
      rw [if_pos hf, if_pos h2]
    · rw [if_neg hf]
  · by_cases hf : f = "Tyler"
    · subst hf
      have hTy : ("Tyler" = "Tyler" ∧ L < 2) ↔ L < 2 := by simp
      simp only [hTy, facLoadViolationStep]
      split_ifs <;> first | rfl | omega | simp_all
    · have hO : (f = "Tyler" ∧ L < 2) ↔ False := by simp [hf]
      simp only [hO, not_false_iff, and_true, facLoadViolationStep, if_neg hf]
      split_ifs <;> first | rfl | omega

/-- C3 (witness): concrete loads — Tyler at 1 is exempt, Tyler at 2 and Glen
at 2 incur −0.4, Glen at 5 incurs −0.5, and the violation step counts the
corresponding underloads. -/
theorem c3_witness :
    facLoadScore "Tyler" 1 = 0
    ∧ facLoadScore "Tyler" 2 = -(2/5)
    ∧ facLoadScore "Glen" 2 = -(2/5)
    ∧ facLoadScore "Glen" 5 = -(1/2)
    ∧ (facLoadViolationStep "Glen" 2).2 = 1
    ∧ (facLoadViolationStep "Tyler" 1).2 = 0 := by
  refine ⟨(c3_facilitator_load_rule "Tyler" 1).2.1 rfl (by omega),
    (c3_facilitator_load_rule "Tyler" 2).2.2.1,
    (c3_facilitator_load_rule "Glen" 2).2.2.2.1 (by omega) (by simp),
    (c3_facilitator_load_rule "Glen" 5).1 (by omega), ?_, ?_⟩
  · rw [(c3_facilitator_load_rule "Glen" 2).2.2.2.2]
    simp
  · rw [(c3_facilitator_load_rule "Tyler" 1).2.2.2.2]
    simp

lemma lookupD_bumpKey_self {α : Type} [DecidableEq α] (m : List (α × Nat)) (k : α) :
    lookupD (bumpKey m k) k = lookupD m k + 1 := by
  induction m with
  | nil => simp [bumpKey, lookupD]
  | cons e rest ih =>
    obtain ⟨k2, c⟩ := e
    by_cases h : k2 = k
    · simp [bumpKey, lookupD, h]
    · simp [bumpKey, lookupD, h, ih]

lemma lookupD_bumpKey_ne {α : Type} [DecidableEq α] (m : List (α × Nat)) {k k2 : α}
    (h : k2 ≠ k) : lookupD (bumpKey m k) k2 = lookupD m k2 := by
  induction m with
  | nil => simp [bumpKey, lookupD, Ne.symm h]
  | cons e rest ih =>
    obtain ⟨k3, c⟩ := e
    by_cases h3 : k3 = k
    · subst h3
      simp [bumpKey, lookupD, Ne.symm h]
    · by_cases h2 : k3 = k2
      · simp [bumpKey, lookupD, h3, h2, h]
      · simp [bumpKey, lookupD, h3, h2, ih]

lemma keys_bumpKey {α : Type} [DecidableEq α] (m : List (α × Nat)) (k : α) :
    (bumpKey m k).map Prod.fst =
      if k ∈ m.map Prod.fst then m.map Prod.fst else m.map Prod.fst ++ [k] := by
  induction m with
  | nil => simp [bumpKey]
  | cons e rest ih =>
    obtain ⟨k2, c⟩ := e
    by_cases h : k2 = k
    · simp [bumpKey, h]
    · have hne : ¬ k = k2 := fun hc => h hc.symm
      by_cases hmem : k ∈ rest.map Prod.fst
      · simp [bumpKey, h, ih, hmem, hne]
      · simp [bumpKey, h, ih, hmem, hne]

lemma toFinset_keys_bumpKey {α : Type} [DecidableEq α] (m : List (α × Nat)) (k : α) :
    ((bumpKey m k).map Prod.fst).toFinset = insert k (m.map Prod.fst).toFinset := by
  rw [keys_bumpKey]
  by_cases hmem : k ∈ m.map Prod.fst
  · rw [if_pos hmem]
    exact (Finset.insert_eq_self.mpr (List.mem_toFinset.mpr hmem)).symm
  · rw [if_neg hmem]
    simp [List.toFinset_append, Finset.union_comm, Finset.insert_eq]

lemma nodup_keys_bumpKey {α : Type} [DecidableEq α] (m : List (α × Nat)) (k : α)
    (h : (m.map Prod.fst).Nodup) : ((bumpKey m k).map Prod.fst).Nodup := by
  rw [keys_bumpKey]
  by_cases hmem : k ∈ m.map Prod.fst
  · simpa [hmem] using h
  · rw [if_neg hmem]
    refine List.Nodup.append h (List.nodup_singleton k) ?_
    intro x hx hx2
    rw [List.mem_singleton.mp hx2] at hx
    exact hmem hx

/-- The multiplicity of `k` in `keys` (instance-free formulation). -/
def keyCount {α : Type} [DecidableEq α] (keys : List α) (k : α) : Nat :=
  keys.countP (fun x => decide (x = k))

lemma keyCount_nil {α : Type} [DecidableEq α] (k : α) : keyCount ([] : List α) k = 0 := rfl

lemma keyCount_cons {α : Type} [DecidableEq α] (a : α) (l : List α) (k : α) :
    keyCount (a :: l) k = keyCount l k + if a = k then 1 else 0 := by
  simp [keyCount, List.countP_cons]

lemma keyCount_pos {α : Type} [DecidableEq α] {keys : List α} {k : α} (h : k ∈ keys) :
    0 < keyCount keys k := by
  rw [keyCount, List.countP_pos_iff]
  exact ⟨k, h, by simp⟩

lemma foldl_bumpKey_lookupD {α : Type} [DecidableEq α] (keys : List α) :
    ∀ (m : List (α × Nat)) (k : α),
      lookupD (keys.foldl bumpKey m) k = lookupD m k + keyCount keys k := by
  induction keys with
  | nil => simp [keyCount_nil]
  | cons a rest ih =>
    intro m k
    by_cases h : a = k
    · subst h
      simp [List.foldl_cons, ih, lookupD_bumpKey_self, keyCount_cons]
      omega
    · have hne : k ≠ a := fun hc => h hc.symm
      simp [List.foldl_cons, ih, lookupD_bumpKey_ne _ hne, keyCount_cons, h]

lemma foldl_bumpKey_keys_nodup {α : Type} [DecidableEq α] (keys : List α) :
    ∀ (m : List (α × Nat)), (m.map Prod.fst).Nodup →
      ((keys.foldl bumpKey m).map Prod.fst).Nodup := by
  induction keys with
  | nil => intro m h; simpa using h
  | cons a rest ih =>
    intro m h
    exact ih _ (nodup_keys_bumpKey m a h)

lemma foldl_bumpKey_keys_toFinset {α : Type} [DecidableEq α] (keys : List α) :
    ∀ (m : List (α × Nat)),
      ((keys.foldl bumpKey m).map Prod.fst).toFinset
        = (m.map Prod.fst).toFinset ∪ keys.toFinset := by
  induction keys with
  | nil => simp
  | cons a rest ih =>
    intro m
    rw [List.foldl_cons, ih, toFinset_keys_bumpKey, List.toFinset_cons]
    ext x
    simp [or_comm, or_left_comm]

lemma entry_eq_lookupD {α : Type} [DecidableEq α] (m : List (α × Nat))
    (h : (m.map Prod.fst).Nodup) : ∀ e ∈ m, e.2 = lookupD m e.1 := by
  induction m with
  | nil => intro e he; cases he
  | cons e0 rest ih =>
    obtain ⟨k0, c0⟩ := e0
    intro e he
    have hhead : k0 ∉ rest.map Prod.fst := (List.nodup_cons.mp h).1
    have htail : (rest.map Prod.fst).Nodup := (List.nodup_cons.mp h).2
    rcases List.mem_cons.mp he with rfl | hmem
    · simp [lookupD]
    · have hk : e.1 ∈ rest.map Prod.fst := List.mem_map_of_mem Prod.fst hmem
      have hne : ¬ k0 = e.1 := by
        intro hc
        rw [hc] at hhead
        exact hhead hk
      simp only [lookupD, if_neg hne]
      exact ih htail e hmem

lemma conflictExcess_eq_sum {α : Type} (m : List (α × Nat)) :
    conflictExcess m = (m.map (fun e => e.2 - 1)).sum := by
  have hgen : ∀ (l : List (α × Nat)) (acc : Nat),
      l.foldl (fun acc e => if e.2 > 1 then acc + (e.2 - 1) else acc) acc
        = acc + (l.map (fun e => e.2 - 1)).sum := by
    intro l
    induction l with
    | nil => simp
    | cons e rest ih =>
      intro acc
      by_cases h : e.2 > 1
      · simp [List.foldl_cons, h, ih]
        omega
      · have : e.2 - 1 = 0 := by omega
        simp [List.foldl_cons, h, ih, this]
  simpa [conflictExcess] using hgen m 0

/-- The central counting fact behind the room-conflict rule: the
`occupants - 1 per conflicting key` accumulation over a count dict built from
`keys` equals the sum of (multiplicity − 1) over the distinct keys. -/
lemma conflictExcess_buildCounts {α : Type} [DecidableEq α] (keys : List α) :
    conflictExcess (buildCounts keys) = ∑ k ∈ keys.toFinset, (keyCount keys k - 1) := by
  have hnodup : ((buildCounts keys).map Prod.fst).Nodup :=
    foldl_bumpKey_keys_nodup keys [] (by simp)
  have hlookup : ∀ k, lookupD (buildCounts keys) k = keyCount keys k := by
    intro k
    simpa [lookupD] using foldl_bumpKey_lookupD keys [] k
  have hfin : ((buildCounts keys).map Prod.fst).toFinset = keys.toFinset := by
    simpa using foldl_bumpKey_keys_toFinset keys []
  rw [conflictExcess_eq_sum]
  have hmap : (buildCounts keys).map (fun e => e.2 - 1)
      = ((buildCounts keys).map Prod.fst).map (fun k => keyCount keys k - 1) := by
    rw [List.map_map]
    refine List.map_congr_left ?_
    intro e he
    have := entry_eq_lookupD _ hnodup e he
    simp [Function.comp, this, hlookup]
  rw [hmap, ← List.sum_toFinset _ hnodup, hfin]

/-- C6: for every schedule, the room_conflicts violation count equals the sum,
over every (room, time-slot) pair occupied by k > 1 activities, of k − 1; and
on the concrete schedule with 3 activities sharing ("Beach 201", "10 AM") the
count is exactly 2 (not 3 and not 1). -/
theorem c6_room_conflicts (s : Sched) :
    (calculate_constraint_violations s).room_conflicts
      = ∑ k ∈ (room_time_keys s).toFinset.filter
          (fun k => 1 < keyCount (room_time_keys s) k),
          (keyCount (room_time_keys s) k - 1)
    ∧ (calculate_constraint_violations conflictSchedule).room_conflicts = 2 := by
  constructor
  · have h1 : (calculate_constraint_violations s).room_conflicts
        = conflictExcess (room_time_usage s) := rfl
    rw [h1]
    rw [room_time_usage, conflictExcess_buildCounts]
    have hcond : ∀ x ∈ (room_time_keys s).toFinset,
        keyCount (room_time_keys s) x - 1 ≠ 0 → 1 < keyCount (room_time_keys s) x := by
      intro x hx hne
      have hpos : 0 < keyCount (room_time_keys s) x :=
        keyCount_pos (List.mem_toFinset.mp hx)
      omega
    exact (Finset.sum_filter_of_ne hcond).symm
  · decide

/-- C10: for every crossover point in the drawn range 0..N−1, the child of
perform_single_point_crossover assigns each activity a copy of exactly one
parent's assignment for that same activity, covers exactly the catalog's
activities, and its first catalog activity ("SLA101A") always comes from the
first parent — because the split test is `index <= point` and the point is
at least 0, the child is never composed entirely of the second parent's
assignments. -/
theorem c10_single_point_crossover (pt : Nat) (p1 p2 : Sched)
    (hpt : pt < ALL_ACTIVITIES.length) :
    (∀ e ∈ perform_single_point_crossover pt p1 p2,
        e.2 = (lookup_assignment p1 e.1).copy ∨ e.2 = (lookup_assignment p2 e.1).copy)
    ∧ (perform_single_point_crossover pt p1 p2).map Prod.fst = ALL_ACTIVITIES
    ∧ lookup_assignment (perform_single_point_crossover pt p1 p2) "SLA101A"
        = (lookup_assignment p1 "SLA101A").copy := by
  refine ⟨?_, ?_, ?_⟩
  · intro e he
    simp only [perform_single_point_crossover, List.mem_map] at he
    obtain ⟨x, hx, rfl⟩ := he
    by_cases h : x.1 ≤ pt
    · left
      simp [h]
    · right
      simp [h]
  · show (ALL_ACTIVITIES.enum.map _).map Prod.fst = ALL_ACTIVITIES
    rw [List.map_map]
    refine Eq.trans ?_ (List.enum_map_snd ALL_ACTIVITIES)
    refine List.map_congr_left ?_
    intro a ha
    by_cases h : a.1 ≤ pt <;> simp [Function.comp, h]
  · have henum : ALL_ACTIVITIES.enum
        = [(0, "SLA101A"), (1, "SLA101B"), (2, "SLA191A"), (3, "SLA191B"),
           (4, "SLA201"), (5, "SLA291"), (6, "SLA303"), (7, "SLA304"),
           (8, "SLA394"), (9, "SLA449"), (10, "SLA451")] := rfl
    simp only [perform_single_point_crossover, henum, List.map_cons]
    rw [if_pos (Nat.zero_le pt)]
    simp [lookup_assignment]

/-- C10 (witness): the crossover at the concrete point 0 with two concrete
parents — point 0 is in range and the child's first activity is the first
parent's. -/
theorem c10_witness :
    (0 < ALL_ACTIVITIES.length)
    ∧ lookup_assignment (perform_single_point_crossover 0 exampleSchedule conflictSchedule)
        "SLA101A" = (lookup_assignment exampleSchedule "SLA101A").copy :=
  ⟨by decide,
   (c10_single_point_crossover 0 exampleSchedule conflictSchedule (by decide)).2.2⟩

lemma sum_map_div (l : List ℚ) (t : ℚ) : (l.map (fun x => x / t)).sum = l.sum / t := by
  induction l with
  | nil => simp
  | cons a rest ih => simp [List.sum_cons, ih, add_div]

/-- C9: calculate_softmax_probabilities returns [] on the empty list; when the
max-shifted exponentials sum to zero it returns the uniform distribution 1/n
instead of dividing by zero; and whenever the exponential function is positive
(as the real exp is), it returns exp(score − max)/total per candidate — all
probabilities positive and summing to 1. -/
theorem c9_softmax_spec (expFn : ℚ → ℚ) (l : List ℚ) :
    calculate_softmax_probabilities expFn [] = []
    ∧ (l ≠ [] → shiftedTotal expFn l = 0 →
        calculate_softmax_probabilities expFn l
          = List.replicate l.length ((1 : ℚ) / (l.length : ℚ)))
    ∧ ((∀ x, 0 < expFn x) → l ≠ [] →
        calculate_softmax_probabilities expFn l
          = l.map (fun x => expFn (x - maxScore l) / shiftedTotal expFn l)
        ∧ (∀ p ∈ calculate_softmax_probabilities expFn l, 0 < p)
        ∧ (calculate_softmax_probabilities expFn l).sum = 1) := by
  refine ⟨rfl, ?_, ?_⟩
  · intro hne h0
    match l with
    | [] => exact absurd rfl hne
    | s :: rest =>
      have h0' : ((s :: rest).map (fun x => expFn (x - rest.foldl max s))).sum = 0 := h0
      show (if ((s :: rest).map (fun x => expFn (x - rest.foldl max s))).sum = 0
            then List.replicate (s :: rest).length ((1 : ℚ) / ((s :: rest).length : ℚ))
            else ((s :: rest).map (fun x => expFn (x - rest.foldl max s))).map
              (fun x => x / ((s :: rest).map (fun x => expFn (x - rest.foldl max s))).sum))
          = List.replicate (s :: rest).length ((1 : ℚ) / ((s :: rest).length : ℚ))
      rw [if_pos h0']
  · intro hpos hne
    match l with
    | [] => exact absurd rfl hne
    | s :: rest =>
      have htot : 0 < shiftedTotal expFn (s :: rest) := by
        refine List.sum_pos _ ?_ (by simp)
        intro x hx
        obtain ⟨y, hy, rfl⟩ := List.mem_map.mp hx
        exact hpos _
      have hres : calculate_softmax_probabilities expFn (s :: rest)
          = (s :: rest).map
              (fun x => expFn (x - maxScore (s :: rest)) / shiftedTotal expFn (s :: rest)) := by
        have htot' : ¬ ((s :: rest).map (fun x => expFn (x - rest.foldl max s))).sum = 0 :=
          htot.ne'
        show (if ((s :: rest).map (fun x => expFn (x - rest.foldl max s))).sum = 0
              then List.replicate (s :: rest).length ((1 : ℚ) / ((s :: rest).length : ℚ))
              else ((s :: rest).map (fun x => expFn (x - rest.foldl max s))).map
                (fun x => x / ((s :: rest).map (fun x => expFn (x - rest.foldl max s))).sum))
            = _
        rw [if_neg htot']
        rw [List.map_map]
        rfl
      refine ⟨hres, ?_, ?_⟩
      · intro p hp
        rw [hres] at hp
        obtain ⟨y, hy, rfl⟩ := List.mem_map.mp hp
        exact div_pos (hpos _) htot
      · rw [hres]
        have hsplit : (s :: rest).map
              (fun x => expFn (x - maxScore (s :: rest)) / shiftedTotal expFn (s :: rest))
            = ((s :: rest).map (fun x => expFn (x - maxScore (s :: rest)))).map
                (fun x => x / shiftedTotal expFn (s :: rest)) := by
          rw [List.map_map]
          rfl
        rw [hsplit, sum_map_div]
        exact div_self htot.ne'

/-- C9 (witness): concrete instances — with a positive exponential the
probabilities of [1000, 1000.1, 999.9] sum to 1, and with the
identically-zero exponential the fallback returns the uniform distribution. -/
theorem c9_softmax_witness :
    ((1000 : ℚ) :: (10001/10 : ℚ) :: [(9999/10 : ℚ)] ≠ [])
    ∧ (calculate_softmax_probabilities (fun _ => 1)
        [(1000 : ℚ), 10001/10, 9999/10]).sum = 1
    ∧ calculate_softmax_probabilities (fun _ => 0) [(1000 : ℚ), 10001/10, 9999/10]
        = List.replicate 3 ((1 : ℚ) / 3) := by
  refine ⟨by simp, ?_, ?_⟩
  · exact ((c9_softmax_spec (fun _ => 1) [(1000 : ℚ), 10001/10, 9999/10]).2.2
      (fun x => one_pos) (by simp)).2.2
  · have h := (c9_softmax_spec (fun _ => 0) [(1000 : ℚ), 10001/10, 9999/10]).2.1
      (by simp) (by simp [shiftedTotal])
    simpa using h

lemma length_select_best (population : List Sched) (scores : List ℚ) (k : Nat) :
    (select_best_schedules population scores k).length
      = min k (min population.length scores.length) := by
  simp [select_best_schedules, List.length_mergeSort, List.length_zip]

lemma assemble_length (elite offspring : List Sched) (population_size : Nat)
    (h : elite.length + offspring.length = population_size) :
    (assemble_next_generation elite offspring population_size).length = population_size := by
  have hlen : (elite ++ offspring).length = population_size := by
    rw [List.length_append]
    exact h
  have hgt : ¬ ((elite ++ offspring).length > population_size) := by
    rw [hlen]
    omega
  have hlt : ¬ ((elite ++ offspring).length < population_size) := by
    rw [hlen]
    omega
  simp only [assemble_next_generation]
  rw [if_neg hgt, if_neg hlt]
  exact hlen

/-- C7: whenever elitism_count < population_size, one full reproduction step —
elitism_count elite deep copies, `population_size − elitism_count` parent
pairs each producing one offspring, assembled elites-first with the source's
truncate/pad fixup — yields a next population of exactly population_size. -/
theorem c7_population_size_invariant (population : List Sched) (scores : List ℚ)
    (pickA pickB : Nat → Sched) (reproduce : Sched × Sched → Sched)
    (population_size elitism_count : Nat)
    (hpop : population.length = population_size)
    (hsc : scores.length = population_size)
    (he : elitism_count < population_size) :
    (select_best_schedules population scores elitism_count).length = elitism_count
    ∧ ((select_parent_pairs pickA pickB (population_size - elitism_count)).map
        reproduce).length = population_size - elitism_count
    ∧ (assemble_next_generation
         (select_best_schedules population scores elitism_count)
         ((select_parent_pairs pickA pickB (population_size - elitism_count)).map reproduce)
         population_size).length = population_size := by
  have h1 : (select_best_schedules population scores elitism_count).length = elitism_count := by
    rw [length_select_best, hpop, hsc]
    omega
  have h2 : ((select_parent_pairs pickA pickB (population_size - elitism_count)).map
      reproduce).length = population_size - elitism_count := by
    simp [select_parent_pairs]
  refine ⟨h1, h2, ?_⟩
  refine assemble_length _ _ _ ?_
  rw [h1, h2]
  omega

/-- C7 (witness): a concrete step with population size 2 and one elite yields
a next generation of exactly 2 schedules. -/
theorem c7_witness :
    (assemble_next_generation
      (select_best_schedules [exampleSchedule, conflictSchedule] [0, 0] 1)
      ((select_parent_pairs (fun _ => exampleSchedule) (fun _ => conflictSchedule)
        (2 - 1)).map Prod.fst) 2).length = 2 :=
  (c7_population_size_invariant [exampleSchedule, conflictSchedule] [0, 0]
    (fun _ => exampleSchedule) (fun _ => conflictSchedule) Prod.fst 2 1
    rfl rfl (by omega)).2.2

lemma lookupHash_mem (c : HashCache) (k : Int) (v : ℚ)
    (h : lookupHash c k = some v) : (k, v) ∈ c := by
  induction c with
  | nil => simp [lookupHash] at h
  | cons e rest ih =>
    obtain ⟨k2, v2⟩ := e
    by_cases hk : k2 = k
    · subst hk
      simp [lookupHash] at h
      subst h
      exact List.mem_cons_self _ _
    · simp only [lookupHash, if_neg hk] at h
      exact List.mem_cons_of_mem _ (ih h)

lemma memo_returns_fresh
    (hashFn : List (Option String × Option String × Option String) → Int)
    (cache : HashCache) (s : Sched) (hacc : CacheAccurate hashFn cache s) :
    (calculate_schedule_fitness_memo hashFn cache s).1 = calculate_schedule_fitness s := by
  cases hl : lookupHash cache (hashFn (encodeKey s)) with
  | some v =>
    simp only [calculate_schedule_fitness_memo, hl]
    exact hacc _ (lookupHash_mem _ _ _ hl) rfl
  | none =>
    simp only [calculate_schedule_fitness_memo, hl]

/-- A concrete complete schedule used for the memoization counterexample:
every cross-section pair sits at hour distance 0 or 2, all (room, time) pairs
are distinct, and mutating SLA101A's room from "Slater 003" (capacity 32,
too small for 40) to "Frank 119" (capacity 95) changes its room-size score,
so the schedule's fitness changes under that one-field mutation. -/
def memoSchedule : Sched :=
  [("SLA101A", ⟨some "Slater 003", some "10 AM", some "Glen"⟩),
   ("SLA101B", ⟨some "Roman 201", some "12 PM", some "Lock"⟩),
   ("SLA191A", ⟨some "Loft 310", some "10 AM", some "Banks"⟩),
   ("SLA191B", ⟨some "Loft 206", some "12 PM", some "Glen"⟩),
   ("SLA201", ⟨some "Roman 216", some "1 PM", some "Banks"⟩),
   ("SLA291", ⟨some "Frank 119", some "2 PM", some "Lock"⟩),
   ("SLA303", ⟨some "Beach 301", some "11 AM", some "Zeldin"⟩),
   ("SLA304", ⟨some "Beach 201", some "11 AM", some "Singer"⟩),
   ("SLA394", ⟨some "James 325", some "12 PM", some "Tyler"⟩),
   ("SLA449", ⟨some "James 325", some "1 PM", some "Uther"⟩),
   ("SLA451", ⟨some "James 325", some "2 PM", some "Zeldin"⟩)]

/-- constants.py: the room-name list `list(ROOMS_WITH_CAPACITIES.keys())`. -/
def ROOM_NAMES : List String := ROOMS_WITH_CAPACITIES.map Prod.fst

/-- The j-th catalog room name. -/
def roomName (j : Fin 9) : String := ROOM_NAMES.get ⟨j.val, j.isLt⟩

/-- The j-th catalog time slot. -/
def timeName (j : Fin 6) : String := ALL_TIME_SLOTS.get ⟨j.val, j.isLt⟩

/-- The j-th catalog facilitator. -/
def facName (j : Fin 10) : String := ALL_FACILITATORS.get ⟨j.val, j.isLt⟩

/-- The complete catalog-valued schedule determined by a choice of
(room, time slot, facilitator) catalog indices for each of the 11 activities.
Every schedule the engine can produce is of this shape. -/
def schedOfChoice (f : Fin 11 → Fin 9 × Fin 6 × Fin 10) : Sched :=
  List.ofFn (fun i : Fin 11 =>
    (ALL_ACTIVITIES.get ⟨i.val, i.isLt⟩,
     (⟨some (roomName (f i).1), some (timeName (f i).2.1),
       some (facName (f i).2.2)⟩ : Assignment)))

lemma roomName_inj : Function.Injective roomName := by
  intro a b h
  have hn : ROOM_NAMES.Nodup := by decide
  exact Fin.ext (congrArg Fin.val ((List.Nodup.get_inj_iff hn).mp h))

lemma timeName_inj : Function.Injective timeName := by
  intro a b h
  have hn : ALL_TIME_SLOTS.Nodup := by decide
  exact Fin.ext (congrArg Fin.val ((List.Nodup.get_inj_iff hn).mp h))

lemma facName_inj : Function.Injective facName := by
  intro a b h
  have hn : ALL_FACILITATORS.Nodup := by decide
  exact Fin.ext (congrArg Fin.val ((List.Nodup.get_inj_iff hn).mp h))

lemma schedOfChoice_inj : Function.Injective schedOfChoice := by
  intro f g h
  rw [schedOfChoice, schedOfChoice, List.ofFn_inj] at h
  funext i
  have h3 := congrFun h i
  have h4 := congrArg Prod.snd h3
  have hroom : roomName (f i).1 = roomName (g i).1 :=
    Option.some_injective _ (congrArg Assignment.room h4)
  have htime : timeName (f i).2.1 = timeName (g i).2.1 :=
    Option.some_injective _ (congrArg Assignment.time h4)
  have hfac : facName (f i).2.2 = facName (g i).2.2 :=
    Option.some_injective _ (congrArg Assignment.facilitator h4)
  have e1 := roomName_inj hroom
  have e2 := timeName_inj htime
  have e3 := facName_inj hfac
  exact Prod.ext e1 (Prod.ext e2 e3)

lemma schedOfChoice_complete (f : Fin 11 → Fin 9 × Fin 6 × Fin 10) :
    (schedOfChoice f).map Prod.fst = ALL_ACTIVITIES := by
  rw [schedOfChoice, List.map_ofFn]
  exact List.ofFn_get ALL_ACTIVITIES

set_option maxRecDepth 8000 in
/-- Supporting fact for C5: the cache key space is too small.  For every hash
function into the 64-bit signed range — CPython's `hash` always lands there —
there exist two distinct complete catalog-valued schedules with equal cache
keys, because there are 540^11 such schedules and only 2^64 key values.  So
the collision hypothesis of `c5_counterexample` is not an artifact of a
particular hash: no possible hash makes the serialized-then-hashed key
injective on the schedules the engine ranges over. -/
theorem hash_collision_unavoidable
    (hashFn : List (Option String × Option String × Option String) → Int)
    (hbound : ∀ k, -(2 ^ 63) ≤ hashFn k ∧ hashFn k < 2 ^ 63) :
    ∃ s1 s2 : Sched, s1 ≠ s2
      ∧ s1.map Prod.fst = ALL_ACTIVITIES
      ∧ s2.map Prod.fst = ALL_ACTIVITIES
      ∧ hashFn (encodeKey s1) = hashFn (encodeKey s2) := by
  have hmem : ∀ f : Fin 11 → Fin 9 × Fin 6 × Fin 10,
      hashFn (encodeKey (schedOfChoice f)) ∈ Finset.Icc (-(2 ^ 63) : ℤ) (2 ^ 63 - 1) := by
    intro f
    rcases hbound (encodeKey (schedOfChoice f)) with ⟨h1, h2⟩
    exact Finset.mem_Icc.mpr ⟨h1, by omega⟩
  have hcard : (Finset.Icc (-(2 ^ 63) : ℤ) (2 ^ 63 - 1)).card
      < (Finset.univ : Finset (Fin 11 → Fin 9 × Fin 6 × Fin 10)).card := by
    rw [Finset.card_univ, Int.card_Icc, Fintype.card_fun]
    simp only [Fintype.card_prod, Fintype.card_fin]
    norm_num
  obtain ⟨f, hfu, g, hgu, hfg, heq⟩ := Finset.exists_ne_map_eq_of_card_lt_of_maps_to
    hcard (fun a _ => hmem a)
  refine ⟨schedOfChoice f, schedOfChoice g, ?_,
    schedOfChoice_complete f, schedOfChoice_complete g, ?_⟩
  · intro hc
    exact hfg (schedOfChoice_inj hc)
  · exact heq

set_option maxHeartbeats 4000000 in
/-- C5 (counterexample): the memoized evaluator is NOT observationally equal
to the cache-free one on all schedules.  The cache key is the bounded
`hash(str(...))` of the assignments, so the hash function admits collisions
(see `hash_collision_unavoidable`: every function into the 64-bit range
collides on distinct complete schedules); at a colliding member of the
modelled hash family — here the constant hash, which collides on every pair —
computing a schedule's fitness, mutating one room, and recomputing returns
the stale pre-mutation value instead of the fresh fitness of the mutated
schedule. -/
theorem c5_counterexample :
    (calculate_schedule_fitness_memo (fun _ => (0 : Int))
        ((calculate_schedule_fitness_memo (fun _ => (0 : Int)) [] memoSchedule).2)
        (setRoom memoSchedule "SLA101A" (some "Frank 119"))).1
      = calculate_schedule_fitness memoSchedule
    ∧ (calculate_schedule_fitness_memo (fun _ => (0 : Int))
        ((calculate_schedule_fitness_memo (fun _ => (0 : Int)) [] memoSchedule).2)
        (setRoom memoSchedule "SLA101A" (some "Frank 119"))).1
      ≠ calculate_schedule_fitness (setRoom memoSchedule "SLA101A" (some "Frank 119")) := by
  refine ⟨rfl, ?_⟩
  have hne : calculate_schedule_fitness memoSchedule
      ≠ calculate_schedule_fitness (setRoom memoSchedule "SLA101A" (some "Frank 119")) := by
    simp [calculate_schedule_fitness, activity_score, evaluate_room_size,
      evaluate_facilitator_pref, facLoadScore, evaluate_section_spacing,
      evaluate_cross_section, calculate_hour_difference, time_slot_index,
      is_room_in_beach_or_roman, lookupD, room_time_usage, facilitator_time_usage,
      facilitator_total_load, buildCounts, bumpKey, room_time_keys,
      facilitator_time_keys, facilitator_keys, setRoom, memoSchedule,
      lookup_assignment, ACTIVITY_DEFINITIONS, ROOMS_WITH_CAPACITIES,
      ALL_TIME_SLOTS, SLA101_SECTIONS, SLA191_SECTIONS, CROSS_SECTION_PAIRS,
      List.lookup, List.indexOf?, List.findIdx?, Option.getD]
    norm_num
  intro hcontra
  exact hne hcontra

/-- C5 (amended): mutating a field and recomputing returns the fresh,
cache-free fitness of the current assignments whenever the 64-bit hash of the
serialized assignments does not collide with a different cached key — first
conjunct: a call returns the fresh fitness whenever every cache entry whose
stored hash equals the query's holds the query's own fitness (vacuously true
for the empty cache and absent collisions); second conjunct: the claim's
compute–mutate–recompute scenario returns the fresh post-mutation fitness
provided the mutated schedule's hash differs from the original's and the
prior cache has no colliding entry.  On a hash collision the evaluator can
instead return the colliding entry's stale value (`c5_counterexample`), and
collisions exist for every possible 64-bit hash
(`hash_collision_unavoidable`). -/
theorem c5_memoized_fresh_unless_collision
    (hashFn : List (Option String × Option String × Option String) → Int)
    (cache : HashCache) (s : Sched) (name : String) (r : Option String)
    (hacc : CacheAccurate hashFn cache s) :
    (calculate_schedule_fitness_memo hashFn cache s).1 = calculate_schedule_fitness s
    ∧ (hashFn (encodeKey (setRoom s name r)) ≠ hashFn (encodeKey s) →
        CacheAccurate hashFn cache (setRoom s name r) →
        (calculate_schedule_fitness_memo hashFn
            (calculate_schedule_fitness_memo hashFn cache s).2
            (setRoom s name r)).1
          = calculate_schedule_fitness (setRoom s name r)) := by
  refine ⟨memo_returns_fresh hashFn cache s hacc, ?_⟩
  intro hne hacc2
  cases hl : lookupHash cache (hashFn (encodeKey s)) with
  | some v =>
    have hc1 : (calculate_schedule_fitness_memo hashFn cache s).2 = cache := by
      simp only [calculate_schedule_fitness_memo, hl]
    rw [hc1]
    exact memo_returns_fresh hashFn cache _ hacc2
  | none =>
    have hc1 : (calculate_schedule_fitness_memo hashFn cache s).2
        = (hashFn (encodeKey s), calculate_schedule_fitness s) :: cache := by
      simp only [calculate_schedule_fitness_memo, hl]
    rw [hc1]
    refine memo_returns_fresh hashFn _ _ ?_
    intro e he hk
    rcases List.mem_cons.mp he with rfl | hmem
    · exact absurd hk.symm hne
    · exact hacc2 e hmem hk

/-- A concrete hash that separates the two keys the witness exercises. -/
def c5WitnessHash : List (Option String × Option String × Option String) → Int :=
  fun k => if k = encodeKey exampleSchedule then 0 else 1

/-- C5 (witness for the amended theorem): with a concrete hash that does not
collide on the two concrete keys involved and the empty cache, the memoized
evaluator returns the fresh fitness both before and after mutating one room. -/
theorem c5_witness :
    (calculate_schedule_fitness_memo c5WitnessHash [] exampleSchedule).1
      = calculate_schedule_fitness exampleSchedule
    ∧ (calculate_schedule_fitness_memo c5WitnessHash
        (calculate_schedule_fitness_memo c5WitnessHash [] exampleSchedule).2
        (setRoom exampleSchedule "SLA101A" (some "Frank 119"))).1
      = calculate_schedule_fitness (setRoom exampleSchedule "SLA101A" (some "Frank 119")) := by
  have h := c5_memoized_fresh_unless_collision c5WitnessHash [] exampleSchedule
    "SLA101A" (some "Frank 119") (by intro e he hk; exact absurd he (List.not_mem_nil e))
  exact ⟨h.1, h.2 (by decide) (by intro e he hk; exact absurd he (List.not_mem_nil e))⟩

lemma shouldTerminate_min {m g : Nat} {imp : Option ℚ}
    (h : shouldTerminate m g imp = true) : m ≤ g + 1 := by
  simp only [shouldTerminate, Bool.and_eq_true, decide_eq_true_eq] at h
  exact h.1

lemma runLoop_total_le (avg : Nat → ℚ) (m : Nat) (ua : Bool) :
    ∀ (fuel g : Nat) (prev : Option ℚ) (rate : ℚ),
      (runLoop avg m ua g prev rate fuel).totalGenerations ≤ g + fuel := by
  intro fuel
  induction fuel with
  | zero =>
    intro g prev rate
    simp [runLoop]
  | succ n ih =>
    intro g prev rate
    simp only [runLoop]
    cases hterm : shouldTerminate m g (calcImprovement prev (avg g))
    · simp only [Bool.false_eq_true, if_false]
      have := ih (g + 1) (some (avg g)) (adaptRate ua g (calcImprovement prev (avg g)) rate)
      omega
    · simp only [if_true]
      omega

lemma runLoop_early_min (avg : Nat → ℚ) (m : Nat) (ua : Bool) :
    ∀ (fuel g : Nat) (prev : Option ℚ) (rate : ℚ),
      (runLoop avg m ua g prev rate fuel).terminatedEarly = true →
      m ≤ (runLoop avg m ua g prev rate fuel).totalGenerations := by
  intro fuel
  induction fuel with
  | zero =>
    intro g prev rate h
    simp [runLoop] at h
  | succ n ih =>
    intro g prev rate h
    simp only [runLoop] at h ⊢
    cases hterm : shouldTerminate m g (calcImprovement prev (avg g))
    · simp only [hterm, Bool.false_eq_true, if_false] at h ⊢
      exact ih (g + 1) (some (avg g)) _ h
    · simp only [hterm, if_true]
      have := shouldTerminate_min hterm
      omega

lemma runLoop_first_plateau (avg : Nat → ℚ) (m : Nat) (ua : Bool) :
    ∀ (fuel g : Nat) (rate : ℚ) (j : Nat),
      j < fuel →
      plateauAt avg m (g + j) = true →
      (∀ i, i < j → plateauAt avg m (g + i) = false) →
      (runLoop avg m ua g (prevAverageOf avg g) rate fuel).totalGenerations = g + j + 1
      ∧ (runLoop avg m ua g (prevAverageOf avg g) rate fuel).terminatedEarly = true := by
  intro fuel
  induction fuel with
  | zero =>
    intro g rate j hj
    omega
  | succ n ih =>
    intro g rate j hj hp hprev
    cases j with
    | zero =>
      have hterm : shouldTerminate m g (calcImprovement (prevAverageOf avg g) (avg g)) = true := hp
      constructor
      · show (runLoop avg m ua g (prevAverageOf avg g) rate (n + 1)).totalGenerations
          = g + 0 + 1
        simp [runLoop, hterm]
      · show (runLoop avg m ua g (prevAverageOf avg g) rate (n + 1)).terminatedEarly = true
        simp [runLoop, hterm]
    | succ j2 =>
      have h0 : plateauAt avg m g = false := by
        have := hprev 0 (by omega)
        simpa using this
      have hterm : shouldTerminate m g (calcImprovement (prevAverageOf avg g) (avg g)) = false := h0
      simp only [runLoop, hterm, Bool.false_eq_true, if_false]
      have hshift : g + 1 + j2 = g + (j2 + 1) := by omega
      have hih := ih (g + 1) (adaptRate ua g (calcImprovement (prevAverageOf avg g) (avg g)) rate)
        j2 (by omega) (by rw [hshift]; exact hp)
        (by
          intro i hi
          have := hprev (i + 1) (by omega)
          have hsh2 : g + 1 + i = g + (i + 1) := by omega
          rw [hsh2]
          exact this)
      have hprev1 : (some (avg g)) = prevAverageOf avg (g + 1) := rfl
      rw [hprev1]
      have h1 := hih.1
      have h2 := hih.2
      constructor
      · show (runLoop avg m ua (g + 1) (prevAverageOf avg (g + 1))
          (adaptRate ua g (calcImprovement (prevAverageOf avg g) (avg g)) rate) n).totalGenerations
          = g + (j2 + 1) + 1
        omega
      · exact h2

/-- C4: the loop stops on the plateau rule exactly at the first generation g
where g+1 ≥ minimum_generations, improvement is defined (g is not the very
first generation) and improvement < 1.0 percent; the plateau condition can
never hold before the minimum-generations floor; an early (plateau) stop
always satisfies the floor; and the total number of generations run never
exceeds maximum_generations. -/
theorem c4_termination (avg : Nat → ℚ) (minimum_generations maximum_generations : Nat)
    (ua : Bool) (initRate : ℚ) :
    (engineRun avg minimum_generations maximum_generations ua initRate).totalGenerations
      ≤ maximum_generations
    ∧ (∀ g, g < maximum_generations →
        plateauAt avg minimum_generations g = true →
        (∀ i, i < g → plateauAt avg minimum_generations i = false) →
        (engineRun avg minimum_generations maximum_generations ua initRate).totalGenerations
            = g + 1
        ∧ (engineRun avg minimum_generations maximum_generations ua initRate).terminatedEarly
            = true)
    ∧ (∀ g, plateauAt avg minimum_generations g = true → minimum_generations ≤ g + 1)
    ∧ ((engineRun avg minimum_generations maximum_generations ua initRate).terminatedEarly
          = true →
        minimum_generations ≤
          (engineRun avg minimum_generations maximum_generations ua initRate).totalGenerations) := by
  refine ⟨?_, ?_, ?_, ?_⟩
  · have := runLoop_total_le avg minimum_generations ua maximum_generations 0 none initRate
    simpa [engineRun] using this
  · intro g hg hp hprev
    have h := runLoop_first_plateau avg minimum_generations ua maximum_generations 0 initRate g
      hg (by simpa using hp) (by intro i hi; simpa using hprev i hi)
    have hprev0 : (none : Option ℚ) = prevAverageOf avg 0 := rfl
    constructor
    · show (engineRun avg minimum_generations maximum_generations ua initRate).totalGenerations
        = g + 1
      rw [engineRun, hprev0]
      have := h.1
      omega
    · rw [engineRun, hprev0]
      exact h.2
  · intro g hp
    exact shouldTerminate_min hp
  · intro h
    exact runLoop_early_min avg minimum_generations ua maximum_generations 0 none initRate h

/-- C4 (witness): with constant average fitness 37, minimum 2 and maximum 5
generations, improvement is 0 percent from generation 1 on, so the loop stops
exactly at the end of generation index 1 — 2 generations run, early. -/
theorem c4_witness :
    (engineRun (fun _ => 37) 2 5 true (1/100)).totalGenerations = 2
    ∧ (engineRun (fun _ => 37) 2 5 true (1/100)).terminatedEarly = true := by
  have hp : plateauAt (fun _ => 37) 2 1 = true := by
    norm_num [plateauAt, improvementAt, prevAverageOf, calcImprovement, shouldTerminate]
  have hprev : ∀ i, i < 1 → plateauAt (fun _ => 37) 2 i = false := by
    intro i hi
    have hi0 : i = 0 := by omega
    subst hi0
    norm_num [plateauAt, improvementAt, prevAverageOf, calcImprovement, shouldTerminate]
  exact (c4_termination (fun _ => 37) 2 5 true (1/100)).2.1 1 (by omega) hp hprev

lemma adaptRate_cases (ua : Bool) (g : Nat) (imp : Option ℚ) (rate : ℚ) :
    adaptRate ua g imp rate = rate
    ∨ (adaptRate ua g imp rate = rate / 2 ∧ ua = true ∧ 0 < g ∧ g % 20 = 0
       ∧ ∃ i, imp = some i ∧ 1/10 < i) := by
  unfold adaptRate
  by_cases hcond : (ua && decide (0 < g) && decide (g % 20 = 0)) = true
  · rw [if_pos hcond]
    simp only [Bool.and_eq_true, decide_eq_true_eq] at hcond
    match imp with
    | none => exact Or.inl rfl
    | some i =>
      by_cases hi : 1/10 < i
      · refine Or.inr ⟨?_, hcond.1.1, hcond.1.2, hcond.2, i, rfl, hi⟩
        show (if 1/10 < i then rate / 2 else rate) = rate / 2
        rw [if_pos hi]
      · refine Or.inl ?_
        show (if 1/10 < i then rate / 2 else rate) = rate
        rw [if_neg hi]
  · rw [if_neg hcond]
    exact Or.inl rfl

lemma adaptRate_pos {rate : ℚ} (ua : Bool) (g : Nat) (imp : Option ℚ)
    (h : 0 < rate) : 0 < adaptRate ua g imp rate := by
  rcases adaptRate_cases ua g imp rate with heq | ⟨heq, _⟩
  · rw [heq]; exact h
  · rw [heq]; exact half_pos h

lemma runLoop_history_head (avg : Nat → ℚ) (m : Nat) (ua : Bool)
    (fuel g : Nat) (prev : Option ℚ) (rate : ℚ) :
    ∃ t, (runLoop avg m ua g prev rate (fuel + 1)).history
      = (⟨g, calcImprovement prev (avg g), rate⟩ : GenRecord) :: t := by
  cases hterm : shouldTerminate m g (calcImprovement prev (avg g))
  · refine ⟨(runLoop avg m ua (g + 1) (some (avg g))
      (adaptRate ua g (calcImprovement prev (avg g)) rate) fuel).history, ?_⟩
    simp [runLoop, hterm]
  · refine ⟨[], ?_⟩
    simp [runLoop, hterm]

lemma runLoop_chain (avg : Nat → ℚ) (m : Nat) (ua : Bool) :
    ∀ (fuel g : Nat) (prev : Option ℚ) (rate : ℚ),
      List.Chain' (fun a b => b.rate = adaptRate ua a.gen a.improvement a.rate)
        (runLoop avg m ua g prev rate fuel).history := by
  intro fuel
  induction fuel with
  | zero =>
    intro g prev rate
    simp [runLoop]
  | succ n ih =>
    intro g prev rate
    simp only [runLoop]
    cases hterm : shouldTerminate m g (calcImprovement prev (avg g))
    · simp only [Bool.false_eq_true, if_false]
      rw [List.chain'_cons']
      refine ⟨?_, ih (g + 1) (some (avg g)) _⟩
      intro y hy
      cases n with
      | zero =>
        simp [runLoop] at hy
      | succ n2 =>
        obtain ⟨t, ht⟩ := runLoop_history_head avg m ua n2 (g + 1) (some (avg g))
          (adaptRate ua g (calcImprovement prev (avg g)) rate)
        rw [ht] at hy
        simp only [List.head?_cons, Option.mem_def, Option.some.injEq] at hy
        rw [← hy]
    · simp only [if_true]
      simp

lemma runLoop_rate_pos (avg : Nat → ℚ) (m : Nat) (ua : Bool) :
    ∀ (fuel g : Nat) (prev : Option ℚ) (rate : ℚ), 0 < rate →
      ∀ r ∈ (runLoop avg m ua g prev rate fuel).history, 0 < r.rate := by
  intro fuel
  induction fuel with
  | zero =>
    intro g prev rate hpos r hr
    simp [runLoop] at hr
  | succ n ih =>
    intro g prev rate hpos r hr
    simp only [runLoop] at hr
    cases hterm : shouldTerminate m g (calcImprovement prev (avg g)) <;>
      rw [hterm] at hr
    · simp only [Bool.false_eq_true, if_false] at hr
      rcases List.mem_cons.mp hr with rfl | hmem
      · exact hpos
      · exact ih (g + 1) (some (avg g)) _ (adaptRate_pos ua g _ hpos) r hmem
    · simp only [if_true] at hr
      rcases List.mem_cons.mp hr with rfl | hmem
      · exact hpos
      · simp at hmem

lemma chain_step_to_ratchet (ua : Bool) :
    ∀ h : List GenRecord,
      List.Chain' (fun a b => b.rate = adaptRate ua a.gen a.improvement a.rate) h →
      (∀ r ∈ h, 0 < r.rate) →
      List.Chain'
        (fun a b => b.rate ≤ a.rate ∧
          (b.rate = a.rate ∨
            (b.rate = a.rate / 2 ∧ ua = true ∧ 0 < a.gen ∧ a.gen % 20 = 0
             ∧ ∃ i, a.improvement = some i ∧ 1/10 < i))) h := by
  intro h
  induction h with
  | nil =>
    intro _ _
    simp
  | cons a t ih =>
    intro hc hp
    rw [List.chain'_cons'] at hc ⊢
    refine ⟨?_, ih hc.2 (fun r hr => hp r (List.mem_cons_of_mem _ hr))⟩
    intro y hy
    have hstep := hc.1 y hy
    have hapos : 0 < a.rate := hp a (List.mem_cons_self _ _)
    rcases adaptRate_cases ua a.gen a.improvement a.rate with heq | ⟨heq, hcond⟩
    · rw [hstep, heq]
      exact ⟨le_refl _, Or.inl rfl⟩
    · rw [hstep, heq]
      exact ⟨half_le_self hapos.le, Or.inr ⟨rfl, hcond⟩⟩

lemma adaptRate_le {rate : ℚ} (ua : Bool) (g : Nat) (imp : Option ℚ)
    (h : 0 < rate) : adaptRate ua g imp rate ≤ rate := by
  rcases adaptRate_cases ua g imp rate with heq | ⟨heq, _⟩
  · rw [heq]
  · rw [heq]
    exact half_le_self h.le

lemma runLoop_final_le (avg : Nat → ℚ) (m : Nat) (ua : Bool) :
    ∀ (fuel g : Nat) (prev : Option ℚ) (rate : ℚ), 0 < rate →
      (runLoop avg m ua g prev rate fuel).finalRate ≤ rate := by
  intro fuel
  induction fuel with
  | zero =>
    intro g prev rate hpos
    simp [runLoop]
  | succ n ih =>
    intro g prev rate hpos
    simp only [runLoop]
    cases hterm : shouldTerminate m g (calcImprovement prev (avg g))
    · simp only [Bool.false_eq_true, if_false]
      refine le_trans
        (ih (g + 1) (some (avg g)) _ (adaptRate_pos ua g _ hpos)) ?_
      exact adaptRate_le ua g _ hpos
    · simp only [if_true]
      exact le_refl rate

/-- C8: across a run with a positive initial mutation rate, the recorded
mutation rate is non-increasing between consecutive generations; it changes
only by halving, and only when adaptive mutation is enabled, the previous
record's generation index is > 0 and divisible by 20, and its improvement is
defined and exceeds 0.1 percent — it never increases, and the final rate
never exceeds the initial one. -/
theorem c8_mutation_rate_ratchet (avg : Nat → ℚ)
    (minimum_generations maximum_generations : Nat) (ua : Bool)
    (initRate : ℚ) (hpos : 0 < initRate) :
    List.Chain'
      (fun a b => b.rate ≤ a.rate ∧
        (b.rate = a.rate ∨
          (b.rate = a.rate / 2 ∧ ua = true ∧ 0 < a.gen ∧ a.gen % 20 = 0
           ∧ ∃ i, a.improvement = some i ∧ 1/10 < i)))
      (engineRun avg minimum_generations maximum_generations ua initRate).history
    ∧ (engineRun avg minimum_generations maximum_generations ua initRate).finalRate
        ≤ initRate :=
  ⟨chain_step_to_ratchet ua _
    (runLoop_chain avg minimum_generations ua maximum_generations 0 none initRate)
    (runLoop_rate_pos avg minimum_generations ua maximum_generations 0 none initRate hpos),
   runLoop_final_le avg minimum_generations ua maximum_generations 0 none initRate hpos⟩

/-- C8 (witness): the ratchet property holds on the concrete run with constant
average fitness 37, minimum 2, maximum 3 generations and initial rate 1/100. -/
theorem c8_witness :
    List.Chain'
      (fun a b => b.rate ≤ a.rate ∧
        (b.rate = a.rate ∨
          (b.rate = a.rate / 2 ∧ true = true ∧ 0 < a.gen ∧ a.gen % 20 = 0
           ∧ ∃ i, a.improvement = some i ∧ 1/10 < i)))
      (engineRun (fun _ => 37) 2 3 true (1/100)).history
    ∧ (engineRun (fun _ => 37) 2 3 true (1/100)).finalRate ≤ 1/100 :=
  c8_mutation_rate_ratchet (fun _ => 37) 2 3 true (1/100) (by norm_num)

end GenSched
